import Mathlib

/-!
Shallow embedding of `src/aprl/envs/multi_agent.py` (adversarial-policies):
multi-agent environment adapters — tuple-space flattening, agent currying,
tuple/dict bridging, and agent/environment-major transposition — together
with theorems checking the repository's specification against this code.

Python lists are modelled as Lean `List`s; Python operations that can raise
(`list.pop(i)` out of range, `tuple[0]` on an empty tuple, `dict[k]` on a
missing key, `min()` of an empty collection, failed `assert`) are modelled
with `Option`/`Except`, `none`/`.error` marking the raised exception.
-/

namespace MultiAgent

/-- Models Python `list.insert(i, x)`: `l[:i] + [x] + l[i:]`, where slicing
clamps `i` to the list length (an index past the end appends). -/
def list_insert (xs : List α) (i : Nat) (x : α) : List α :=
  xs.take i ++ x :: xs.drop i

/-- Embeds `_tuple_pop(input, i)`: copies the tuple to a list, `pop`s index
`i` and returns the remaining tuple together with the popped element.
Python `list.pop(i)` raises `IndexError` when `i >= len(input)`, modelled as
`none`. -/
def tuple_pop (input : List α) (i : Nat) : Option (List α × α) :=
  match input.get? i with
  | none => none
  | some elt => some (input.eraseIdx i, elt)

/-- Embeds `_tuple_space_filter(tuple_space, filter_idx)`: keeps the spaces
whose enumeration index differs from `filter_idx`, preserving order. -/
def tuple_space_filter (spaces : List α) (filter_idx : Nat) : List α :=
  (spaces.enum.filter (fun p => p.1 != filter_idx)).map Prod.snd

/-- The mutable per-instance state of `CurryEnv`: `self._last_obs` and
`self._last_reward`, both initialised to `None` in `__init__`. -/
structure CurryState (O R : Type) where
  last_obs : Option O
  last_reward : Option R

/-- `CurryEnv.__init__` sets `self._last_obs = None` and
`self._last_reward = None`. -/
def initial_curry_state (O R : Type) : CurryState O R := ⟨none, none⟩

/-- `CurryEnv.__init__` sets `self.num_agents = env.num_agents - 1`. -/
def curry_num_agents (env_num_agents : Nat) : Nat := env_num_agents - 1

/-- Embeds `CurryEnv.step(actions)`. The underlying environment is the
function `env_step` from a full action list to (observations, rewards, done);
`agent` is the fixed policy's `get_action`, applied to `self._last_obs`
(an `Option`, since `_last_obs` is `None` until populated). The source
mutates the caller's `actions` list in place via `actions.insert(...)`; the
second component of the result is the final value of that caller-visible
list. `_tuple_pop` out of range (IndexError) is modelled as `none`. -/
def curry_step {O R A : Type} (env_step : List A → List O × List R × Bool)
    (agent : Option O → A) (agent_to_fix : Nat)
    (st : CurryState O R) (actions : List A) :
    Option (CurryState O R × List A × List O × List R × Bool) :=
  let action := agent st.last_obs
  let actions2 := list_insert actions agent_to_fix action
  let res := env_step actions2
  match tuple_pop res.1 agent_to_fix, tuple_pop res.2.1 agent_to_fix with
  | some (obs2, lastO), some (rews2, lastR) =>
      some (⟨some lastO, some lastR⟩, actions2, obs2, rews2, res.2.2)
  | _, _ => none

/-- Embeds `CurryEnv.reset()`: resets the underlying environment (its
observation list is `env_reset`), pops the fixed agent's observation into
`self._last_obs` (leaving `_last_reward` untouched) and returns the rest. -/
def curry_reset {O R : Type} (env_reset : List O) (agent_to_fix : Nat)
    (st : CurryState O R) : Option (CurryState O R × List O) :=
  match tuple_pop env_reset agent_to_fix with
  | some (obs2, lastO) => some ({ st with last_obs := some lastO }, obs2)
  | none => none

/-! ### `flatten_space` and `FlattenMultiEnv` -/

/-- The gym space kinds handled by `flatten_space` (`Discrete`,
`MultiDiscrete`, `Box`). A `SpaceT` value is a space instance. -/
inductive SpaceT
  | discrete (n : Nat)
  | multiDiscrete (nvec : List Nat)
  | box (low high : List Int)
deriving DecidableEq

/-- A gym space class object, the result of Python `type(space)`. -/
inductive SpaceKind
  | discreteK
  | multiDiscreteK
  | boxK
deriving DecidableEq

/-- Python `type(space)` for a space instance. -/
def SpaceT.kind : SpaceT → SpaceKind
  | .discrete _ => .discreteK
  | .multiDiscrete _ => .multiDiscreteK
  | .box _ _ => .boxK

/-- Attribute access `space.n` (`AttributeError`, i.e. `none`, unless the
space is `Discrete`). -/
def SpaceT.attr_n : SpaceT → Option Nat
  | .discrete n => some n
  | _ => none

/-- Attribute access `space.nvec` (`AttributeError` unless `MultiDiscrete`). -/
def SpaceT.attr_nvec : SpaceT → Option (List Nat)
  | .multiDiscrete nvec => some nvec
  | _ => none

/-- The exceptions `flatten_space` can raise: `TypeError` for mixed space
types, `KeyError` from `set().pop()` on an empty tuple, `NotImplementedError`
from the final `else`, numpy call errors in the `Box` branch, and
`AttributeError` for a wrong attribute access. -/
inductive FlatError
  | typeError
  | keyError
  | notImplementedError
  | numpyError
  | attributeError
deriving DecidableEq

/-- The combined space `flatten_space` would build. -/
inductive FlatSpaceT
  | multiDiscrete (ns : List Nat)
  | multiDiscreteNested (nvecs : List (List Nat))
  | box (low high : List Int)
deriving DecidableEq

/-- The triple `(flat_space, flatten, unflatten)` that `flatten_space`
returns on success. Values are per-agent integer vectors; the returned
functions may themselves raise when called (modelled with `Except`). -/
structure FlatResult where
  space : FlatSpaceT
  flatten : List (List Int) → Except FlatError (List (List Int))
  unflatten : List (List Int) → Except FlatError (List (List Int))

/-- `tuple(space.n for space in spaces)`-style comprehension: collects
`attr_n` of every space, propagating an `AttributeError`. -/
def collect_attr_n : List SpaceT → Option (List Nat)
  | [] => some []
  | s :: ss =>
    match s.attr_n, collect_attr_n ss with
    | some n, some ns => some (n :: ns)
    | _, _ => none

/-- Collects `attr_nvec` of every space, propagating an `AttributeError`. -/
def collect_attr_nvec : List SpaceT → Option (List (List Nat))
  | [] => some []
  | s :: ss =>
    match s.attr_nvec, collect_attr_nvec ss with
    | some nvec, some nvecs => some (nvec :: nvecs)
    | _, _ => none

/-- In the source, `type = unique_types.pop()` binds `type` to a CLASS
object (an element of `set(type(space) for space in ...)`), and each branch
guard is `isinstance(type, gym.spaces.X)`. A class object is an instance of
its metaclass, never of the gym space class itself, so every such test is
`False` regardless of `type`. This constant is that test. -/
def isinstance_of_class (_cls _target : SpaceKind) : Bool := false

/-- Embeds `flatten_space(tuple_space)`. `unique_types` is the set of the
element spaces' classes (`List.dedup` — only its size and, when it is a
singleton, its unique element matter, matching Python's unordered set).
More than one class raises `TypeError`; an empty tuple makes `set().pop()`
raise `KeyError`; otherwise dispatch runs the three `isinstance` tests on
the popped class object (see `isinstance_of_class`) and, all being false,
falls through to `raise NotImplementedError`. The branch bodies are kept
for reference: `Discrete` and `MultiDiscrete` would return identity
`flatten`/`unflatten`; the `Box` branch is modelled as raising because
`np.concatenate(*[...])` passes the second array where the `axis` argument
is expected and `np.flatten` does not exist. -/
def flatten_space (spaces : List SpaceT) : Except FlatError FlatResult :=
  let unique_types := (spaces.map SpaceT.kind).dedup
  if 1 < unique_types.length then
    .error .typeError
  else
    match unique_types with
    | [] => .error .keyError
    | ty :: _ =>
      if isinstance_of_class ty SpaceKind.discreteK then
        match collect_attr_n spaces with
        | some ns => .ok ⟨FlatSpaceT.multiDiscrete ns, fun x => .ok x, fun x => .ok x⟩
        | none => .error .attributeError
      else if isinstance_of_class ty SpaceKind.multiDiscreteK then
        match collect_attr_nvec spaces with
        | some nvecs =>
            .ok ⟨FlatSpaceT.multiDiscreteNested nvecs, fun x => .ok x, fun x => .ok x⟩
        | none => .error .attributeError
      else if isinstance_of_class ty SpaceKind.boxK then
        .error .numpyError
      else
        .error .notImplementedError

/-- Embeds `FlattenMultiEnv.reset()`: `return self.env.reset()[0]`, i.e.
element 0 of the underlying per-agent observation tuple (`IndexError`,
modelled `none`, when the tuple is empty). -/
def flattenMultiEnv_reset {O : Type} (env_reset_obs : List O) : Option O :=
  env_reset_obs.get? 0

/-- Embeds `FlattenMultiEnv.step(action)`: unflattens the action, steps the
underlying environment, and returns the FLATTENED full observation tuple
together with the aggregated reward and `done`. -/
def flattenMultiEnv_step {A A2 O FO R R2 : Type}
    (act_unflatten : A → A2) (obs_flatten : List O → FO) (reward_agg : List R → R2)
    (env_step : A2 → List O × List R × Bool) (action : A) : FO × R2 × Bool :=
  let a := act_unflatten action
  let res := env_step a
  (obs_flatten res.1, reward_agg res.2.1, res.2.2)

/-! ### Tuple/dict bridge and layout transposition -/

/-- Python `d[k]` on a dict modelled as an association list: the value at
the first matching key, `none` for `KeyError`. -/
def dict_lookup (d : List (Nat × α)) (k : Nat) : Option α :=
  (d.find? (fun p => p.1 == k)).map Prod.snd

/-- `tuple(d[i] for i in indices)`: evaluates `d[i]` left to right,
aborting with `none` on the first `KeyError`. -/
def collect_keys (d : List (Nat × α)) : List Nat → Option (List α)
  | [] => some []
  | i :: is =>
    match dict_lookup d i, collect_keys d is with
    | some v, some vs => some (v :: vs)
    | _, _ => none

/-- Embeds `_dict_to_tuple(d)`: `min(d.keys())` (raising `ValueError` on an
empty dict, modelled `none`), `assert min_k == 0` (failed assert modelled
`none`), `max(d.keys())`, then `tuple(d[i] for i in range(max_k + 1))`
(`KeyError` on a gap modelled `none`). -/
def dict_to_tuple (d : List (Nat × α)) : Option (List α) :=
  match d.map Prod.fst with
  | [] => none
  | k :: ks =>
    let min_k := ks.foldl Nat.min k
    if min_k = 0 then
      let max_k := ks.foldl Nat.max k
      collect_keys d (List.range (max_k + 1))
    else none

/-- Embeds `tuple_transpose(xs)`: `inner_len = len(xs[0])` (`IndexError`,
i.e. `none`, on an empty outer sequence), an `assert len(x) == inner_len`
for every row (failed assert modelled `none`), then
`tuple(tuple([x[i] for x in xs]) for i in range(inner_len))`. Inside the
guard every row has length `inner_len`, so `x.get? i` always hits and
`filterMap` returns exactly the comprehension `[x[i] for x in xs]`. -/
def tuple_transpose (xs : List (List α)) : Option (List (List α)) :=
  match xs with
  | [] => none
  | x0 :: rest =>
    let inner_len := x0.length
    if (x0 :: rest).all (fun x => x.length == inner_len) then
      some ((List.range inner_len).map
        (fun i => (x0 :: rest).filterMap (fun x => x.get? i)))
    else
      none

/-! ### Vectorized multi-env adapter construction -/

/-- An already-constructed environment as `_DummyVecMultiEnv.__init__` sees
it: only its (unwrapped) `num_agents` attribute matters here. -/
structure ModelMultiEnv where
  num_agents : Nat
deriving DecidableEq

/-- The `VecMultiEnv` data `_DummyVecMultiEnv.__init__` establishes. -/
structure DummyVecMultiEnvT where
  num_envs : Nat
  num_agents : Nat
deriving DecidableEq

/-- Embeds `_DummyVecMultiEnv.__init__(env_fns)` applied to the
environments the factories produce. The external baselines `DummyVecEnv`
constructor builds every environment and takes its metadata from
`self.envs[0]`, performing no cross-environment consistency check (an empty
batch makes `envs[0]` raise, modelled `none`); `_DummyVecMultiEnv` then
reads `num_agents = getattr_unwrapped(self.envs[0], 'num_agents')` — again
from the first environment only, comparing nothing. -/
def dummyVecMultiEnv_init (envs : List ModelMultiEnv) : Option DummyVecMultiEnvT :=
  match envs with
  | [] => none
  | e0 :: _ => some ⟨envs.length, e0.num_agents⟩

/-! ### Helper lemmas about the list-operation models -/

theorem list_insert_length (xs : List α) (i : Nat) (x : α) :
    (list_insert xs i x).length = xs.length + 1 := by
  simp only [list_insert, List.length_append, List.length_take, List.length_cons,
    List.length_drop]
  omega

theorem list_insert_get_at (xs : List α) (i : Nat) (x : α) (h : i ≤ xs.length) :
    (list_insert xs i x).get? i = some x := by
  have ht : (xs.take i).length = i := by
    simp [List.length_take, Nat.min_eq_left h]
  rw [list_insert, List.get?_eq_getElem?, List.getElem?_append_right (Nat.le_of_eq ht)]
  simp [ht]

theorem tuple_pop_of_lt {l : List α} {i : Nat} (h : i < l.length) :
    tuple_pop l i = some (l.eraseIdx i, l.get ⟨i, h⟩) := by
  simp [tuple_pop, List.get?_eq_getElem?, List.getElem?_eq_getElem h]

theorem tuple_pop_fst_length {l : List α} {i : Nat} (h : i < l.length) :
    (l.eraseIdx i).length = l.length - 1 :=
  List.length_eraseIdx_of_lt h

theorem enumFrom_filter_ne_of_lt (l : List α) (k m : Nat) (hm : m < k) :
    (List.enumFrom k l).filter (fun p => p.1 != m) = List.enumFrom k l := by
  induction l generalizing k with
  | nil => rfl
  | cons a l ih =>
    have hk : (k != m) = true := by
      simp [bne]
      omega
    simp only [List.enumFrom_cons, List.filter_cons, hk, if_true]
    rw [ih (k + 1) (Nat.lt_succ_of_lt hm)]

theorem enumFrom_filter_map_snd (l : List α) : ∀ (k i : Nat),
    ((List.enumFrom k l).filter (fun p => p.1 != (k + i))).map Prod.snd
      = l.eraseIdx i := by
  induction l with
  | nil => intro k i; rfl
  | cons a l ih =>
    intro k i
    cases i with
    | zero =>
      simp only [Nat.add_zero, List.enumFrom_cons, List.filter_cons]
      rw [if_neg (by simp), enumFrom_filter_ne_of_lt l (k + 1) k (Nat.lt_succ_self k)]
      simp [List.enumFrom_map_snd]
    | succ j =>
      have hk : (k != k + (j + 1)) = true := by
        simp [bne]
      simp only [List.enumFrom_cons, List.filter_cons, hk, if_true, List.map_cons,
        List.eraseIdx_cons_succ]
      have := ih (k + 1) j
      rw [show k + 1 + j = k + (j + 1) from by omega] at this
      rw [this]

theorem tuple_space_filter_eq_eraseIdx (l : List α) (i : Nat) :
    tuple_space_filter l i = l.eraseIdx i := by
  have h := enumFrom_filter_map_snd l 0 i
  simpa [tuple_space_filter, List.enum] using h

theorem tuple_space_filter_length {l : List α} {i : Nat} (h : i < l.length) :
    (tuple_space_filter l i).length = l.length - 1 := by
  rw [tuple_space_filter_eq_eraseIdx]
  exact List.length_eraseIdx_of_lt h

/-! ### Theorems settling the claims -/

/-- C1: on a 3-agent environment with `Discrete(2)` actions, currying index
1 with a policy that always answers 0 makes `step([1, 1])` forward the full
action list `[1, 0, 1]` to the underlying environment (visible both in the
mutated action list and in the results being those of `env_step [1, 0, 1]`)
and return only the observations and rewards of original agents 0 and 2,
in that order. -/
theorem curry_step_discrete_scenario {O : Type}
    (env_step : List Nat → List O × List Int × Bool) (st : CurryState O Int)
    (o0 o1 o2 : O) (r0 r1 r2 : Int) (done : Bool)
    (henv : env_step [1, 0, 1] = ([o0, o1, o2], [r0, r1, r2], done)) :
    curry_step env_step (fun _ => 0) 1 st [1, 1]
      = some (⟨some o1, some r1⟩, [1, 0, 1], [o0, o2], [r0, r2], done) := by
  simp [curry_step, list_insert, henv, tuple_pop]

/-- C1 witness: `curry_step_discrete_scenario` applied to a concrete
3-agent environment echoing transformed actions as observations and
rewards. -/
theorem curry_step_discrete_scenario_witness :
    curry_step
        (fun acts : List Nat =>
          (acts.map (fun a => a * 10), acts.map (fun a => Int.ofNat a + 5), false))
        (fun _ => 0) 1 (⟨some 0, none⟩ : CurryState Nat Int) [1, 1]
      = some (⟨some 0, some 5⟩, [1, 0, 1], [10, 10], [6, 6], false) :=
  curry_step_discrete_scenario _ _ 10 0 10 6 5 6 false rfl

theorem curry_step_eq {O R A : Type}
    (env_step : List A → List O × List R × Bool) (agent : Option O → A)
    (idx : Nat) (st : CurryState O R) (actions : List A)
    (h1 : idx < (env_step (list_insert actions idx (agent st.last_obs))).1.length)
    (h2 : idx < (env_step (list_insert actions idx (agent st.last_obs))).2.1.length) :
    curry_step env_step agent idx st actions = some
      (⟨some ((env_step (list_insert actions idx (agent st.last_obs))).1.get ⟨idx, h1⟩),
        some ((env_step (list_insert actions idx (agent st.last_obs))).2.1.get ⟨idx, h2⟩)⟩,
       list_insert actions idx (agent st.last_obs),
       (env_step (list_insert actions idx (agent st.last_obs))).1.eraseIdx idx,
       (env_step (list_insert actions idx (agent st.last_obs))).2.1.eraseIdx idx,
       (env_step (list_insert actions idx (agent st.last_obs))).2.2) := by
  simp only [curry_step, tuple_pop_of_lt h1, tuple_pop_of_lt h2]

/-- C8: currying any N-agent environment (N ≥ 1, curried index valid)
yields `num_agents = N - 1`, filtered observation/action space sequences of
length N - 1, and `step`/`reset` results whose observation and reward
sequences have length N - 1 whenever the underlying environment honours its
own length-N contract. -/
theorem curry_agent_count_invariant {O R A S : Type}
    (agent : Option O → A) (N idx : Nat) (_hN : 1 ≤ N) (hidx : idx < N)
    (obs_spaces act_spaces : List S)
    (hO : obs_spaces.length = N) (hA : act_spaces.length = N)
    (env_step : List A → List O × List R × Bool) (env_reset : List O)
    (hreset : env_reset.length = N)
    (st : CurryState O R) (actions : List A)
    (hso : (env_step (list_insert actions idx (agent st.last_obs))).1.length = N)
    (hsr : (env_step (list_insert actions idx (agent st.last_obs))).2.1.length = N) :
    curry_num_agents N = N - 1 ∧
    (tuple_space_filter obs_spaces idx).length = N - 1 ∧
    (tuple_space_filter act_spaces idx).length = N - 1 ∧
    (∃ st2 acts2 obs2 rews2 done,
      curry_step env_step agent idx st actions = some (st2, acts2, obs2, rews2, done) ∧
        obs2.length = N - 1 ∧ rews2.length = N - 1) ∧
    (∃ st3 obs3, curry_reset env_reset idx st = some (st3, obs3) ∧
        obs3.length = N - 1) := by
  have h1 : idx < (env_step (list_insert actions idx (agent st.last_obs))).1.length := by
    omega
  have h2 : idx < (env_step (list_insert actions idx (agent st.last_obs))).2.1.length := by
    omega
  have h3 : idx < env_reset.length := by omega
  refine ⟨rfl, ?_, ?_, ?_, ?_⟩
  · rw [tuple_space_filter_length (show idx < obs_spaces.length by omega), hO]
  · rw [tuple_space_filter_length (show idx < act_spaces.length by omega), hA]
  · refine ⟨_, _, _, _, _, curry_step_eq env_step agent idx st actions h1 h2, ?_, ?_⟩
    · rw [tuple_pop_fst_length h1, hso]
    · rw [tuple_pop_fst_length h2, hsr]
  · exact ⟨{ st with last_obs := some (env_reset.get ⟨idx, h3⟩) }, env_reset.eraseIdx idx,
      by simp only [curry_reset, tuple_pop_of_lt h3], by rw [tuple_pop_fst_length h3, hreset]⟩

/-- C8 witness: the invariant at a concrete 3-agent environment, curried at
index 1. -/
theorem curry_agent_count_invariant_witness :
    curry_num_agents 3 = 2 ∧
    (tuple_space_filter [0, 1, 2] 1).length = 2 ∧
    (tuple_space_filter [3, 4, 5] 1).length = 2 ∧
    (∃ (st2 : CurryState Nat Nat) (acts2 : List Nat) (obs2 : List Nat)
        (rews2 : List Nat) (done : Bool),
      curry_step (fun _ => ([7, 8, 9], [1, 2, 3], false)) (fun _ => 0) 1
          (⟨none, none⟩ : CurryState Nat Nat) [0, 0]
        = some (st2, acts2, obs2, rews2, done) ∧
        obs2.length = 2 ∧ rews2.length = 2) ∧
    (∃ (st3 : CurryState Nat Nat) (obs3 : List Nat),
      curry_reset [4, 5, 6] 1 (⟨none, none⟩ : CurryState Nat Nat) = some (st3, obs3) ∧
        obs3.length = 2) :=
  curry_agent_count_invariant (fun _ => 0) 3 1 (by decide) (by decide)
    [0, 1, 2] [3, 4, 5] rfl rfl (fun _ => ([7, 8, 9], [1, 2, 3], false)) [4, 5, 6] rfl
    ⟨none, none⟩ [0, 0] rfl rfl

/-- C9: `CurryEnv.step` mutates the caller's `actions` list in place: after
a returning call, that list equals the original with the fixed agent's
action inserted at the curried index, so it is one element longer and holds
that action at the curried index. -/
theorem curry_step_mutates_caller_actions {O R A : Type}
    (env_step : List A → List O × List R × Bool) (agent : Option O → A)
    (idx : Nat) (st : CurryState O R) (actions : List A)
    (st2 : CurryState O R) (acts2 : List A) (obs2 : List O) (rews2 : List R)
    (done : Bool)
    (hcall : curry_step env_step agent idx st actions
      = some (st2, acts2, obs2, rews2, done))
    (hidx : idx ≤ actions.length) :
    acts2 = list_insert actions idx (agent st.last_obs) ∧
      acts2.length = actions.length + 1 ∧
      acts2.get? idx = some (agent st.last_obs) := by
  have hacts : acts2 = list_insert actions idx (agent st.last_obs) := by
    simp only [curry_step] at hcall
    split at hcall
    · simp only [Option.some.injEq, Prod.mk.injEq] at hcall
      exact hcall.2.1.symm
    · exact Option.noConfusion hcall
  subst hacts
  exact ⟨rfl, list_insert_length _ _ _, list_insert_get_at _ _ _ hidx⟩

/-- C9 witness: a concrete returning `step` call, after which the caller's
2-element action list has become the 3-element list with the fixed action
at index 1. -/
theorem curry_step_mutates_caller_actions_witness :
    [8, 5, 9] = list_insert [8, 9] 1
        ((fun (_ : Option Nat) => 5) (⟨none, none⟩ : CurryState Nat Nat).last_obs) ∧
      ([8, 5, 9] : List Nat).length = ([8, 9] : List Nat).length + 1 ∧
      ([8, 5, 9] : List Nat).get? 1
        = some ((fun (_ : Option Nat) => 5) (⟨none, none⟩ : CurryState Nat Nat).last_obs) :=
  curry_step_mutates_caller_actions (fun acts : List Nat => (acts, acts, true))
    (fun _ => 5) 1 ⟨none, none⟩ [8, 9] ⟨some 5, some 5⟩ [8, 5, 9] [8, 9] [8, 9] true
    rfl (by decide)

/-- C4 counterexample: stepping a freshly constructed `CurryEnv` (reset
never called, `_last_obs` still `None`) does not fail: the call returns
normally, and the fixed policy is silently queried with the unset
observation — here the policy answers 99 on `None`, and 99 is what gets
forwarded in the fixed agent's slot. -/
theorem curry_step_before_reset_no_failure :
    curry_step (fun acts => (acts, acts, false)) (fun o => o.getD 99) 0
        (initial_curry_state Nat Nat) [1, 2]
      = some (⟨some 99, some 99⟩, [99, 1, 2], [1, 2], [1, 2], false) := rfl

/-- C4 amended: calling `step` before `reset` raises nothing in `CurryEnv`
itself; whenever the underlying environment's results are long enough for
the pops to succeed, the call returns normally with the fixed slot filled
by the policy's answer to the unset (`None`) observation. -/
theorem curry_step_before_reset_queries_policy_with_none {O R A : Type}
    (env_step : List A → List O × List R × Bool) (agent : Option O → A)
    (idx : Nat) (actions : List A)
    (hobs : idx < (env_step (list_insert actions idx (agent none))).1.length)
    (hrew : idx < (env_step (list_insert actions idx (agent none))).2.1.length) :
    ∃ st2 obs2 rews2 done,
      curry_step env_step agent idx (initial_curry_state O R) actions
        = some (st2, list_insert actions idx (agent none), obs2, rews2, done) := by
  simp only [curry_step, initial_curry_state, tuple_pop_of_lt hobs, tuple_pop_of_lt hrew]
  exact ⟨_, _, _, _, rfl⟩

/-- C4 witness: `curry_step_before_reset_queries_policy_with_none` at a
concrete environment and policy. -/
theorem curry_step_before_reset_queries_policy_with_none_witness :
    ∃ (st2 : CurryState Nat Nat) (obs2 : List Nat) (rews2 : List Nat) (done : Bool),
      curry_step (fun acts => (acts.map (fun a => a + 1), acts, true))
          (fun o => o.getD 7) 1 (initial_curry_state Nat Nat) [5, 6]
        = some (st2, list_insert [5, 6] 1 ((fun (o : Option Nat) => o.getD 7) none),
            obs2, rews2, done) :=
  curry_step_before_reset_queries_policy_with_none _ _ 1 [5, 6] (by decide) (by decide)

/-- C3: the specification says `flatten_space` on an all-`Discrete` tuple
returns a combined `MultiDiscrete` space with identity flatten/unflatten;
the code instead raises `NotImplementedError` on `(Discrete(2), Discrete(2))`,
contradicting its own docstring, because each branch guard applies
`isinstance` to the class object popped from `unique_types`. -/
theorem flatten_space_discrete_pair_raises :
    flatten_space [SpaceT.discrete 2, SpaceT.discrete 2]
      = Except.error FlatError.notImplementedError := rfl

/-- C2: the specification's round-trip property `unflatten (flatten x) = x`
is never realised: `flatten_space` raises before returning the function
pair, here evaluated on a pair of one-dimensional `Box` spaces (and the
`Box` branch body is itself broken, see `flatten_space`). -/
theorem flatten_space_box_pair_raises :
    flatten_space [SpaceT.box [0] [1], SpaceT.box [0] [1]]
      = Except.error FlatError.notImplementedError := rfl

/-- C5 counterexample: constructing the vectorized adapter from two
environments whose `num_agents` disagree (2 vs 3) succeeds — no
`AgentCountMismatch` is raised — and the batch silently adopts the first
environment's agent count. -/
theorem dummyVecMultiEnv_mismatch_not_rejected :
    dummyVecMultiEnv_init [⟨2⟩, ⟨3⟩] = some ⟨2, 2⟩ ∧
      (⟨3⟩ : ModelMultiEnv).num_agents ≠ (⟨2⟩ : ModelMultiEnv).num_agents :=
  ⟨rfl, by decide⟩

/-- C5 amended: `_DummyVecMultiEnv` construction reads `num_agents` from
the first factory's environment only; any batch with at least one
environment is accepted, whatever the other environments' agent counts. -/
theorem dummyVecMultiEnv_init_first_env_only (e0 : ModelMultiEnv)
    (rest : List ModelMultiEnv) :
    dummyVecMultiEnv_init (e0 :: rest) = some ⟨rest.length + 1, e0.num_agents⟩ := by
  simp [dummyVecMultiEnv_init]

theorem collect_keys_missing {α : Type} (d : List (Nat × α)) {i : Nat} {l : List Nat}
    (hmem : i ∈ l) (hmiss : dict_lookup d i = none) :
    collect_keys d l = none := by
  induction l with
  | nil => cases hmem
  | cons j l ih =>
    cases hmem with
    | head => simp [collect_keys, hmiss]
    | tail _ hm =>
      simp only [collect_keys]
      rw [ih hm]
      cases dict_lookup d j <;> rfl

/-- C7: `_dict_to_tuple` fails whenever the (nonempty) key set is not
exactly `{0, ..., max_key}`: any index `i ≤ max_key` absent from the
mapping makes the reconstruction raise (`AssertionError` when the minimum
key is nonzero, `KeyError` at the gap otherwise), modelled as `none`. -/
theorem dict_to_tuple_missing_key {α : Type} (d : List (Nat × α)) (k : Nat)
    (ks : List Nat) (i : Nat)
    (hkeys : d.map Prod.fst = k :: ks)
    (hle : i ≤ ks.foldl Nat.max k)
    (hmiss : dict_lookup d i = none) :
    dict_to_tuple d = none := by
  simp only [dict_to_tuple, hkeys]
  split
  · exact collect_keys_missing d (List.mem_range.mpr (Nat.lt_succ_of_le hle)) hmiss
  · rfl

/-- C7 witness: a mapping with keys `{0, 2}` (key 1 missing) fails to
convert back to a sequence. -/
theorem dict_to_tuple_missing_key_witness :
    dict_to_tuple [((0 : Nat), (10 : Nat)), (2, 20)] = none :=
  dict_to_tuple_missing_key _ 0 [2] 1 rfl (by decide) rfl

theorem filterMap_eq_map_of_forall_some {l : List β} {f : β → Option γ} {g : β → γ}
    (h : ∀ b ∈ l, f b = some (g b)) : l.filterMap f = l.map g := by
  induction l with
  | nil => rfl
  | cons b l ih =>
    simp only [List.filterMap_cons, h b (List.mem_cons_self b l), List.map_cons]
    rw [ih (fun y hy => h y (List.mem_cons_of_mem b hy))]

theorem length_filterMap_get? (xs : List (List α)) (i : Nat)
    (h : ∀ x ∈ xs, i < x.length) :
    (xs.filterMap (fun x => x.get? i)).length = xs.length := by
  induction xs with
  | nil => rfl
  | cons x xs ih =>
    have hx : i < x.length := h x (List.mem_cons_self x xs)
    have hx2 : x.get? i = some x[i] := by
      rw [List.get?_eq_getElem?, List.getElem?_eq_getElem hx]
    simp only [List.filterMap_cons, hx2, List.length_cons]
    rw [ih (fun y hy => h y (List.mem_cons_of_mem x hy))]

theorem filterMap_get?_eq_map_getD (xs : List (List α)) (i : Nat) (d : α)
    (h : ∀ x ∈ xs, i < x.length) :
    xs.filterMap (fun x => x.get? i) = xs.map (fun x => x.getD i d) :=
  filterMap_eq_map_of_forall_some (fun x hx => by
    have hxl : i < x.length := h x hx
    rw [List.get?_eq_getElem?, List.getElem?_eq_getElem hxl, List.getD_eq_getElem x d hxl])

theorem map_range_getD (l : List α) (d : α) :
    (List.range l.length).map (fun i => l.getD i d) = l := by
  apply List.ext_get
  · simp
  · intro n h1 h2
    simp only [List.get_eq_getElem, List.getElem_map, List.getElem_range]
    exact List.getD_eq_getElem l d h2

theorem tuple_transpose_of_rect {xs : List (List α)} {x0 : List α}
    {rest : List (List α)} (hxs : xs = x0 :: rest) (B : Nat) (hB : x0.length = B)
    (hrect : ∀ x ∈ xs, x.length = B) :
    tuple_transpose xs
      = some ((List.range B).map (fun i => xs.filterMap (fun x => x.get? i))) := by
  subst hxs
  have hall : (x0 :: rest).all (fun x => x.length == B) = true := by
    rw [List.all_eq_true]
    intro x hx
    simp [hrect x hx]
  simp [tuple_transpose, hB, hall]

theorem transpose_row_recovery {xs : List (List α)} (B : Nat) (d : α)
    (hrect : ∀ x ∈ xs, x.length = B) (n : Nat) (hn : n < xs.length) :
    ((List.range B).map (fun i => xs.filterMap (fun x => x.get? i))).filterMap
        (fun t => t.get? n)
      = xs.get ⟨n, hn⟩ := by
  rw [List.filterMap_map]
  have hstep : ∀ i ∈ List.range B,
      ((fun t : List α => t.get? n) ∘ (fun i => xs.filterMap (fun x => x.get? i))) i
        = some ((xs.get ⟨n, hn⟩).getD i d) := by
    intro i hi
    have hall : ∀ x ∈ xs, i < x.length := fun x hx => by
      rw [hrect x hx]; exact List.mem_range.mp hi
    simp only [Function.comp_apply]
    rw [filterMap_get?_eq_map_getD xs i d hall, List.get?_eq_getElem?, List.getElem?_map,
      List.getElem?_eq_getElem hn]
    simp
  rw [filterMap_eq_map_of_forall_some hstep]
  have hxn : (xs.get ⟨n, hn⟩).length = B := hrect _ (List.get_mem xs n hn)
  rw [← hxn, map_range_getD]

/-- C6 counterexample: `[[], []]` is a well-formed rectangular nested
sequence (outer length 2, both inners of equal length 0), yet applying
`tuple_transpose` twice does not return it: the first transpose yields the
empty tuple and the second raises `IndexError` on `xs[0]`. -/
theorem tuple_transpose_involution_fails_empty_inner :
    (tuple_transpose ([[], []] : List (List Nat))).bind tuple_transpose = none ∧
      ([[], []] : List (List Nat)) ≠ [] ∧
      (∀ x ∈ ([[], []] : List (List Nat)), x.length = 0) := by
  decide

/-- C6 amended: for every rectangular 2-level nested sequence with
nonempty outer dimension AND nonempty inner dimension (all inner sequences
of equal length B ≥ 1), applying `tuple_transpose` twice returns the
original structure; with B = 0 the second application raises instead. -/
theorem tuple_transpose_involution {α : Type} (xs : List (List α)) (B : Nat)
    (hne : xs ≠ []) (hB : 1 ≤ B) (hrect : ∀ x ∈ xs, x.length = B) :
    (tuple_transpose xs).bind tuple_transpose = some xs := by
  obtain ⟨x0, rest, rfl⟩ := List.exists_cons_of_ne_nil hne
  have hx0 : x0.length = B := hrect x0 (List.mem_cons_self _ _)
  have hd : 0 < x0.length := by omega
  rw [tuple_transpose_of_rect rfl B hx0 hrect, Option.some_bind]
  have hrows : ∀ t ∈ (List.range B).map
      (fun i => (x0 :: rest).filterMap (fun x => x.get? i)),
      t.length = (x0 :: rest).length := by
    intro t ht
    obtain ⟨i, hi, rfl⟩ := List.mem_map.mp ht
    exact length_filterMap_get? _ i (fun x hx => by
      rw [hrect x hx]; exact List.mem_range.mp hi)
  have hTne : (List.range B).map
      (fun i => (x0 :: rest).filterMap (fun x => x.get? i)) ≠ [] := by
    intro h
    have hlen := congrArg List.length h
    simp at hlen
    omega
  obtain ⟨t0, trest, hTeq⟩ := List.exists_cons_of_ne_nil hTne
  have ht0 : t0.length = (x0 :: rest).length := by
    refine hrows t0 ?_
    rw [hTeq]
    exact List.mem_cons_self _ _
  rw [tuple_transpose_of_rect hTeq ((x0 :: rest).length) ht0 hrows]
  congr 1
  apply List.ext_get
  · simp
  · intro n h1 h2
    have h2x : n < (x0 :: rest).length := by simpa using h2
    simp only [List.get_eq_getElem, List.getElem_map, List.getElem_range]
    have hrow := transpose_row_recovery B (x0.get ⟨0, hd⟩) hrect n h2x
    simpa using hrow

/-- C6 witness: the involution on the concrete 2-by-2 rectangular nested
sequence `[[1, 2], [3, 4]]`. -/
theorem tuple_transpose_involution_witness :
    (tuple_transpose ([[1, 2], [3, 4]] : List (List Nat))).bind tuple_transpose
      = some [[1, 2], [3, 4]] :=
  tuple_transpose_involution _ 2 (by decide) (by decide) (by decide)

/-- C10: `FlattenMultiEnv.reset` returns element 0 of the underlying
per-agent observation tuple, whatever the remaining agents' observations
are, whereas `FlattenMultiEnv.step` returns `_obs_flatten` applied to the
full observation tuple. -/
theorem flattenMultiEnv_reset_returns_first_obs {O FO R R2 A A2 : Type}
    (o : O) (rest : List O)
    (act_unflatten : A → A2) (obs_flatten : List O → FO) (reward_agg : List R → R2)
    (env_step : A2 → List O × List R × Bool) (action : A) :
    flattenMultiEnv_reset (o :: rest) = some o ∧
      (flattenMultiEnv_step act_unflatten obs_flatten reward_agg env_step action).1
        = obs_flatten (env_step (act_unflatten action)).1 :=
  ⟨rfl, rfl⟩

end MultiAgent
